import Mathlib

/-!
Verification development for the request-dispatch core of the `panther`
web framework (source files `panther/main.py` and `panther/_utils.py`).

Python strings and byte strings are both embedded as `List Char`; machine
side effects (middleware hook invocations, handler calls, critical-level
log records, monitoring notifications, and the ASGI frames pushed to the
host) are recorded in an explicit event trace.  Fallible Python code is
embedded with `Except`.
-/

/-- Byte strings and text strings of the Python source, embedded as
character lists. -/
abbrev Bytes := List Char

/-- Payload of an `APIException.detail`: either a plain literal or a dict
(as used by `Panther.handle_exceptions` in `main.py`, lines 258-263). -/
inductive PyDetail where
  | lit (s : String)
  | dict (kvs : List (String × String))
deriving DecidableEq, Repr

/-- Python exceptions relevant to dispatch: the application-level
`APIException` (carrying a status code and a detail payload) versus every
other exception (carrying its message text). -/
inductive Exn where
  | apiExn (status : Nat) (detail : PyDetail)
  | other (msg : String)
deriving DecidableEq, Repr

/-- Left brace character, written via its code point. -/
def lbrace : Char := Char.ofNat 123

/-- Right brace character, written via its code point. -/
def rbrace : Char := Char.ofNat 125

/-- Serialization of a flat string dict the way `orjson.dumps` renders it
(no spaces after separators), e.g. `dumps({'detail': 'Not Found'})`. -/
def jsonDict (kvs : List (String × String)) : Bytes :=
  lbrace ::
    (String.intercalate "," (kvs.map (fun kv => "\"" ++ kv.1 ++ "\":\"" ++ kv.2 ++ "\""))).toList
    ++ [rbrace]

/-- Modelled from the spec: the `status_text` table of `panther.status`
(absent from `src/`, imported by `_utils.py`), mapping a status code to its
generic reason phrase, used for the `detail` body of exception responses. -/
def status_text (code : Nat) : String :=
  if code = 200 then "OK"
  else if code = 204 then "No Content"
  else if code = 404 then "Not Found"
  else if code = 500 then "Internal Server Error"
  else if code = 501 then "Not Implemented"
  else "Unknown"

/-- The byte string `b'null'` that `orjson` produces for a `None` payload;
`_utils.http_response` compares the body against it (line 49). -/
def nullBytes : Bytes := "null".toList

/-- Modelled from the spec: the `Response` value of `panther/response.py`
(absent from `src/`): status code, ordered header pairs and an optional
byte body (spec section 3).  Construction from a `data` payload serializes
the payload to a JSON byte body. -/
structure Response where
  status_code : Nat
  headers : List (Bytes × Bytes)
  body : Option Bytes
deriving DecidableEq, Repr

/-- Modelled from the spec: constructing a `Response` from a dict `data`
payload (as `Response(data=..., status_code=...)` does in `main.py`),
serializing the payload to the JSON body. -/
def Response.ofData (kvs : List (String × String)) (status : Nat) : Response :=
  { status_code := status, headers := [], body := some (jsonDict kvs) }

/-- The request object of a dispatch; only the path is relevant to the
dispatch logic in `src/` (the rest of `panther/request.py` is absent). -/
structure Request where
  path : Bytes
deriving DecidableEq, Repr

/-! ## Embedding of `panther/_utils.py` -/

/-- Python `str.removesuffix('/')`: drop one trailing separator if present
(`_utils.py`, lines 108-109). -/
def removeSuffixSlash (s : Bytes) : Bytes :=
  if s.getLast? = some '/' then s.dropLast else s

/-- Python `str.removeprefix('/')`: drop one leading separator if present
(`_utils.py`, lines 108-109). -/
def removePrefixSlash : Bytes → Bytes
  | [] => []
  | c :: t => if c = '/' then t else c :: t

/-- Python `str.split('/')`: split on every separator, keeping empty
segments, with `''.split('/') == ['']`. -/
def splitSlash : Bytes → List Bytes
  | [] => [[]]
  | c :: t =>
    if c = '/' then [] :: splitSlash t
    else
      match splitSlash t with
      | [] => [[c]]
      | s :: rest => (c :: s) :: rest

/-- Python dict insertion on an association list: overwrite the value when
the key exists, otherwise append the new pair. -/
def dictInsert (d : List (Bytes × Bytes)) (k v : Bytes) : List (Bytes × Bytes) :=
  if d.any (fun kv => kv.1 = k) then
    d.map (fun kv => if kv.1 = k then (k, v) else kv)
  else d ++ [(k, v)]

/-- Embedding of `_utils.collect_path_variables` (lines 107-114): strip one
trailing and one leading separator from each argument, split both on the
separator, zip pattern segments against request segments, and collect
`segment[1:-1] -> value` for every pattern segment starting with `<`. -/
def collect_path_variables (request_path found_path : Bytes) : List (Bytes × Bytes) :=
  let fp := removePrefixSlash (removeSuffixSlash found_path)
  let rp := removePrefixSlash (removeSuffixSlash request_path)
  ((splitSlash fp).zip (splitSlash rp)).foldl
    (fun acc p =>
      if p.1.head? = some '<' then dictInsert acc (p.1.drop 1).dropLast p.2 else acc)
    []

/-- Events recorded by one HTTP dispatch: monitoring notifications, the
body read, middleware hook invocations (tagged with the middleware's
position in the declared chain), the handler call, critical-level log
records, and the ASGI response frames pushed to the host. -/
inductive Ev where
  | monBefore
  | bodyRead
  | beforeHook (i : Nat)
  | afterHook (i : Nat)
  | handlerCall
  | logCritical (msg : String)
  | monAfter (status : Nat)
  | frameStart (status : Nat) (headers : List (Bytes × Bytes))
  | frameBody (body : Option Bytes)
deriving DecidableEq, Repr

/-- The hardcoded header list of `_utils._http_response_start`
(lines 21-28): a single `content-type: application/json` pair. -/
def jsonContentTypeHeaders : List (Bytes × Bytes) :=
  [("content-type".toList, "application/json".toList)]

/-- Embedding of `_utils.http_response` (lines 38-56): on `exception`,
replace the body with the serialized generic status-text detail; otherwise
drop the body for a `204` status or a `b'null'` body; notify monitoring
when active; then push one start frame and one body frame. -/
def http_response_trace (status_code : Nat) (monitoring : Bool)
    (body : Option Bytes) (exception : Bool) : List Ev :=
  let body :=
    if exception then some (jsonDict [("detail", status_text status_code)])
    else if status_code = 204 ∨ body = some nullBytes then none
    else body
  (if monitoring then [Ev.monAfter status_code] else []) ++
    [Ev.frameStart status_code jsonContentTypeHeaders, Ev.frameBody body]


/-! ## Embedding of `Panther.handle_http` (`main.py`, lines 170-263) -/

/-- A middleware instance as used by the dispatcher: a pre-hook that may
replace the request and a post-hook that may replace the response, each
allowed to raise. -/
structure Middleware where
  before : Request → Except Exn Request
  after : Response → Except Exn Response

/-- Path variables as passed to the handler (keyword arguments). -/
abbrev PathVars := List (Bytes × Bytes)

/-- A matched endpoint: either a plain function (with or without the
`@API` decorator's `__wrapped__` attribute) or a class (which is or is not
a `GenericAPI` subclass), together with its handler behaviour. -/
inductive Endpoint where
  | func (name : String) (wrapped : Bool) (handler : Request → PathVars → Except Exn Response)
  | cls (name : String) (generic : Bool) (handler : Request → PathVars → Except Exn Response)

/-- Modelled from the spec: `clean_traceback_message` is imported by
`main.py` from `panther._utils` but absent from the `src/` copy of that
file; per spec section 7 it returns the sanitized traceback text of the
exception. -/
def clean_traceback_message : Exn → String
  | .apiExn st _ => "APIException " ++ toString st
  | .other msg => msg

/-- Embedding of `Panther.handle_exceptions` (`main.py`, lines 258-263):
map an `APIException` to a `Response` built from `e.detail` when the
detail is a dict, and from `{'detail': e.detail}` otherwise. -/
def Panther.handle_exceptions (status : Nat) (detail : PyDetail) : Response :=
  match detail with
  | .dict kvs => Response.ofData kvs status
  | .lit s => Response.ofData [("detail", s)] status

/-- The `for middleware in config['middlewares']` pre-hook loop
(`main.py`, lines 193-194): each hook invocation is recorded with the
middleware's declared position; the first raised exception aborts the
remaining pre-hooks and propagates. -/
def runBefores : List (Nat × Middleware) → Request → List Ev × Except Exn Request
  | [], req => ([], .ok req)
  | (i, m) :: rest, req =>
    match m.before req with
    | .ok req' =>
      let r := runBefores rest req'
      (Ev.beforeHook i :: r.1, r.2)
    | .error e => ([Ev.beforeHook i], .error e)

/-- The `for middleware in config['reversed_middlewares']` post-hook loop
(`main.py`, lines 244-248): an `APIException` from a post-hook is mapped
by `handle_exceptions` and traversal continues with the mapped response;
any other exception aborts the loop and propagates. -/
def runAfters : List (Nat × Middleware) → Response → List Ev × Except Exn Response
  | [], resp => ([], .ok resp)
  | (i, m) :: rest, resp =>
    match m.after resp with
    | .ok resp' =>
      let r := runAfters rest resp'
      (Ev.afterHook i :: r.1, r.2)
    | .error (.apiExn st d) =>
      let r := runAfters rest (Panther.handle_exceptions st d)
      (Ev.afterHook i :: r.1, r.2)
    | .error (.other msg) => ([Ev.afterHook i], .error (.other msg))

/-- Outcome of the capability check and handler call (`main.py`,
lines 196-227). -/
inductive EndpointOut where
  | notImplemented
  | result (r : Except Exn Response)

/-- Embedding of the endpoint section inside the `try` block (`main.py`,
lines 196-227): a plain function without `__wrapped__`, or a class that is
not a `GenericAPI` subclass, is logged at critical severity and yields the
`501` path without a handler call; otherwise the handler is invoked with
the (possibly replaced) request and the path variables. -/
def callEndpoint (ep : Endpoint) (req : Request) (pv : PathVars) : List Ev × EndpointOut :=
  match ep with
  | .func name wrapped handler =>
    if wrapped then ([Ev.handlerCall], .result (handler req pv))
    else
      ([Ev.logCritical ("You may have forgotten to use @API on the " ++ name ++ "()")],
       .notImplemented)
  | .cls name generic handler =>
    if generic then ([Ev.handlerCall], .result (handler req pv))
    else
      ([Ev.logCritical ("You may have forgotten to inherit from GenericAPI on the " ++ name ++ "()")],
       .notImplemented)

/-- The `TypeError` raised by the final framing call of `handle_http`
(`main.py`, lines 250-256): the call passes a `headers` keyword argument,
but `_utils.http_response` (lines 38-46) accepts only `status_code`,
`monitoring`, `body` and `exception`, so in Python the call raises
`TypeError` before any frame is pushed. -/
def framingTypeError : Exn :=
  .other "TypeError: http_response() got an unexpected keyword argument headers"

/-- The tail of `handle_http` once a `response` value exists (`main.py`,
lines 243-256): run the post-hook loop, then perform the final framing
call — which, as written in the source, raises `TypeError` because of the
unexpected `headers` keyword argument (see `framingTypeError`); an
exception escaping a post-hook also propagates uncaught. -/
def afterPhase (mws : List Middleware) (acc : List Ev) (resp : Response) :
    List Ev × Except Exn Unit :=
  let r := runAfters mws.enum.reverse resp
  match r.2 with
  | .ok _ => (acc ++ r.1, .error framingTypeError)
  | .error e => (acc ++ r.1, .error e)

/-- Embedding of `Panther.handle_http` (`main.py`, lines 170-256).  The
routing function `find` stands for `panther.routings.find_endpoint`
(absent from `src/`; per spec section 4.1 it returns the matched handler
or `NOT_FOUND` together with the matched pattern).  Monitoring is notified
before dispatch, the body is read, the path is resolved and the path
variables collected; a missing route frames `404` without touching the
middleware chain; otherwise the pre-hook loop, capability check and
handler call run inside the `try` block, with `APIException` mapped to a
response that continues into the post-hook loop and any other exception
logged and framed as `500` without post-hooks. -/
def handle_http (find : Bytes → Option Endpoint × Bytes) (mws : List Middleware)
    (req : Request) : List Ev × Except Exn Unit :=
  let pre := [Ev.monBefore, Ev.bodyRead]
  let fr := find req.path
  let pv := collect_path_variables req.path fr.2
  match fr.1 with
  | none => (pre ++ http_response_trace 404 true none true, .ok ())
  | some ep =>
    let b := runBefores mws.enum req
    match b.2 with
    | .error (.apiExn st d) =>
      afterPhase mws (pre ++ b.1) (Panther.handle_exceptions st d)
    | .error (.other msg) =>
      (pre ++ b.1 ++ [Ev.logCritical (clean_traceback_message (.other msg))]
         ++ http_response_trace 500 true none true, .ok ())
    | .ok req' =>
      let c := callEndpoint ep req' pv
      match c.2 with
      | .notImplemented =>
        (pre ++ b.1 ++ c.1 ++ http_response_trace 501 true none true, .ok ())
      | .result (.error (.apiExn st d)) =>
        afterPhase mws (pre ++ b.1 ++ c.1) (Panther.handle_exceptions st d)
      | .result (.error (.other msg)) =>
        (pre ++ b.1 ++ c.1 ++ [Ev.logCritical (clean_traceback_message (.other msg))]
           ++ http_response_trace 500 true none true, .ok ())
      | .result (.ok resp) =>
        afterPhase mws (pre ++ b.1 ++ c.1) resp

/-- Helper: the pre-hook loop only records pre-hook events. -/
theorem runBefores_events (l : List (Nat × Middleware)) (req : Request) :
    ∀ e ∈ (runBefores l req).1, ∃ i, e = Ev.beforeHook i := by
  induction l generalizing req with
  | nil => intro e he; simp [runBefores] at he
  | cons im rest ih =>
    intro e he
    obtain ⟨i, m⟩ := im
    simp only [runBefores] at he
    cases hm : m.before req with
    | ok req' =>
      rw [hm] at he
      simp only [List.mem_cons] at he
      rcases he with h | h
      · exact ⟨i, h⟩
      · exact ih req' e h
    | error ex =>
      rw [hm] at he
      simp only [List.mem_cons, List.not_mem_nil, or_false] at he
      exact ⟨i, he⟩

/-- Helper: the capability-check failure log produced by the endpoint
section, when the endpoint fails the check (a plain function without
`__wrapped__`, or a class that is not a `GenericAPI` subclass). -/
def capabilityLog : Endpoint → Option String
  | .func n false _ => some ("You may have forgotten to use @API on the " ++ n ++ "()")
  | .cls n false _ => some ("You may have forgotten to inherit from GenericAPI on the " ++ n ++ "()")
  | _ => none

/-- Helper: the registered name of an endpoint. -/
def Endpoint.nameOf : Endpoint → String
  | .func n _ _ => n
  | .cls n _ _ => n

/-- Sanity check: one successful dispatch through a single identity
middleware, ending in the final framing call's `TypeError`. -/
theorem handle_http_identity_dispatch_trace :
    handle_http (fun p => (some (.func "h" true (fun _ _ => .ok ⟨200, [], none⟩)), p))
      [⟨fun r => .ok r, fun r => .ok r⟩] ⟨"/x".toList⟩ =
    ([Ev.monBefore, Ev.bodyRead, Ev.beforeHook 0, Ev.handlerCall, Ev.afterHook 0],
     .error framingTypeError) := rfl

/-- Claim C6: an HTTP dispatch whose path matches no registered route
frames a `404 Not Found` response, and the middleware chain is skipped
entirely: the trace holds no pre-hook and no post-hook event of any
middleware. -/
theorem c6_no_route_frames_404_and_skips_middleware
    (find : Bytes → Option Endpoint × Bytes) (mws : List Middleware)
    (req : Request) (fp : Bytes) (h : find req.path = (none, fp)) :
    handle_http find mws req =
      ([Ev.monBefore, Ev.bodyRead, Ev.monAfter 404,
        Ev.frameStart 404 jsonContentTypeHeaders,
        Ev.frameBody (some (jsonDict [("detail", status_text 404)]))], .ok ()) ∧
    ∀ i, Ev.beforeHook i ∉ (handle_http find mws req).1 ∧
      Ev.afterHook i ∉ (handle_http find mws req).1 := by
  have heq : handle_http find mws req =
      ([Ev.monBefore, Ev.bodyRead, Ev.monAfter 404,
        Ev.frameStart 404 jsonContentTypeHeaders,
        Ev.frameBody (some (jsonDict [("detail", status_text 404)]))], .ok ()) := by
    simp [handle_http, h, http_response_trace]
  refine ⟨heq, fun i => ?_⟩
  rw [heq]
  simp

/-- Witness for C6 at a concrete routing table, request and middleware
chain. -/
theorem c6_no_route_frames_404_and_skips_middleware_witness :
    (fun (_ : Bytes) => ((none : Option Endpoint), "".toList)) "/nope".toList
        = (none, "".toList) ∧
    handle_http (fun _ => (none, "".toList))
        [⟨fun r => .ok r, fun r => .ok r⟩] ⟨"/nope".toList⟩ =
      ([Ev.monBefore, Ev.bodyRead, Ev.monAfter 404,
        Ev.frameStart 404 jsonContentTypeHeaders,
        Ev.frameBody (some (jsonDict [("detail", status_text 404)]))], .ok ()) :=
  ⟨rfl,
   (c6_no_route_frames_404_and_skips_middleware (fun _ => (none, "".toList))
      [⟨fun r => .ok r, fun r => .ok r⟩] ⟨"/nope".toList⟩ "".toList rfl).1⟩

/-- Claim C7: when the matched endpoint fails the capability check — a
plain function without the `__wrapped__` attribute of `@API`, or a class
that is not a `GenericAPI` subclass — and the pre-hook chain completes,
the dispatch frames a `501 Not Implemented` response, never invokes the
handler, and logs the misconfiguration at critical severity with a message
naming the offending handler. -/
theorem c7_capability_failure_frames_501
    (find : Bytes → Option Endpoint × Bytes) (mws : List Middleware)
    (req : Request) (fp : Bytes) (ep : Endpoint) (t1 : List Ev)
    (req' : Request) (msg : String)
    (hf : find req.path = (some ep, fp))
    (hb : runBefores mws.enum req = (t1, .ok req'))
    (hcap : capabilityLog ep = some msg) :
    handle_http find mws req =
      ([Ev.monBefore, Ev.bodyRead] ++ t1 ++
        [Ev.logCritical msg, Ev.monAfter 501, Ev.frameStart 501 jsonContentTypeHeaders,
         Ev.frameBody (some (jsonDict [("detail", status_text 501)]))], .ok ()) ∧
    Ev.handlerCall ∉ (handle_http find mws req).1 ∧
    ∃ s1 s2, msg = s1 ++ ep.nameOf ++ s2 := by
  have hc : callEndpoint ep req' (collect_path_variables req.path fp) =
      ([Ev.logCritical msg], .notImplemented) := by
    cases ep with
    | func n w h =>
      cases w with
      | false => simp [capabilityLog] at hcap; simp [callEndpoint, hcap]
      | true => simp [capabilityLog] at hcap
    | cls n g h =>
      cases g with
      | false => simp [capabilityLog] at hcap; simp [callEndpoint, hcap]
      | true => simp [capabilityLog] at hcap
  have heq : handle_http find mws req =
      ([Ev.monBefore, Ev.bodyRead] ++ t1 ++
        [Ev.logCritical msg, Ev.monAfter 501, Ev.frameStart 501 jsonContentTypeHeaders,
         Ev.frameBody (some (jsonDict [("detail", status_text 501)]))], .ok ()) := by
    simp [handle_http, hf, hb, hc, http_response_trace]
  refine ⟨heq, ?_, ?_⟩
  · rw [heq]
    simp only [List.append_assoc, List.mem_append, List.mem_cons, List.mem_singleton]
    rintro (h | h | h)
    · simp at h
    · obtain ⟨i, hi⟩ := runBefores_events mws.enum req Ev.handlerCall (by rw [hb]; exact h)
      exact Ev.noConfusion hi
    · simp at h
  · cases ep with
    | func n w h =>
      cases w with
      | false =>
        simp [capabilityLog] at hcap
        exact ⟨"You may have forgotten to use @API on the ", "()", by
          simp [Endpoint.nameOf, ← hcap]⟩
      | true => simp [capabilityLog] at hcap
    | cls n g h =>
      cases g with
      | false =>
        simp [capabilityLog] at hcap
        exact ⟨"You may have forgotten to inherit from GenericAPI on the ", "()", by
          simp [Endpoint.nameOf, ← hcap]⟩
      | true => simp [capabilityLog] at hcap

/-- Concrete undecorated endpoint used by the C7 witness. -/
def c7Endpoint : Endpoint := .func "my_view" false (fun _ _ => .ok ⟨200, [], none⟩)

/-- Concrete capability-failure log message used by the C7 witness. -/
def c7Msg : String := "You may have forgotten to use @API on the my_view()"

/-- Witness for C7: a plain function endpoint without `@API`, reached with
an empty middleware chain, frames `501`. -/
theorem c7_capability_failure_frames_501_witness :
    ((fun (p : Bytes) => (some c7Endpoint, p)) "/a".toList = (some c7Endpoint, "/a".toList)) ∧
    runBefores ([] : List Middleware).enum ⟨"/a".toList⟩ = ([], .ok ⟨"/a".toList⟩) ∧
    capabilityLog c7Endpoint = some c7Msg ∧
    handle_http (fun p => (some c7Endpoint, p)) [] ⟨"/a".toList⟩ =
      ([Ev.monBefore, Ev.bodyRead] ++ [] ++
        [Ev.logCritical c7Msg, Ev.monAfter 501, Ev.frameStart 501 jsonContentTypeHeaders,
         Ev.frameBody (some (jsonDict [("detail", status_text 501)]))], .ok ()) :=
  ⟨rfl, rfl, rfl,
   (c7_capability_failure_frames_501 (fun p => (some c7Endpoint, p)) [] ⟨"/a".toList⟩
      "/a".toList c7Endpoint [] ⟨"/a".toList⟩ c7Msg rfl rfl rfl).1⟩

/-- Claim C2: when the handler invocation raises an exception that is not
`APIException`, no middleware post-hook runs, the exception is logged at
critical severity through the traceback sanitizer, and a `500 Internal
Server Error` is framed whose body is the serialized generic status-text
detail — independent of the handler-provided or exception-provided
content. -/
theorem c2_unhandled_handler_defect_frames_500
    (find : Bytes → Option Endpoint × Bytes) (mws : List Middleware)
    (req : Request) (fp : Bytes) (ep : Endpoint) (t1 : List Ev)
    (req' : Request) (msg : String)
    (hf : find req.path = (some ep, fp))
    (hb : runBefores mws.enum req = (t1, .ok req'))
    (hc : callEndpoint ep req' (collect_path_variables req.path fp) =
      ([Ev.handlerCall], .result (.error (.other msg)))) :
    handle_http find mws req =
      ([Ev.monBefore, Ev.bodyRead] ++ t1 ++
        [Ev.handlerCall, Ev.logCritical (clean_traceback_message (.other msg)),
         Ev.monAfter 500, Ev.frameStart 500 jsonContentTypeHeaders,
         Ev.frameBody (some (jsonDict [("detail", status_text 500)]))], .ok ()) ∧
    ∀ i, Ev.afterHook i ∉ (handle_http find mws req).1 := by
  have heq : handle_http find mws req =
      ([Ev.monBefore, Ev.bodyRead] ++ t1 ++
        [Ev.handlerCall, Ev.logCritical (clean_traceback_message (.other msg)),
         Ev.monAfter 500, Ev.frameStart 500 jsonContentTypeHeaders,
         Ev.frameBody (some (jsonDict [("detail", status_text 500)]))], .ok ()) := by
    simp [handle_http, hf, hb, hc, http_response_trace, clean_traceback_message]
  refine ⟨heq, fun i => ?_⟩
  rw [heq]
  simp only [List.append_assoc, List.mem_append, List.mem_cons, List.mem_singleton]
  rintro (h | h | h)
  · simp at h
  · obtain ⟨j, hj⟩ := runBefores_events mws.enum req (Ev.afterHook i) (by rw [hb]; exact h)
    exact Ev.noConfusion hj
  · simp at h

/-- Concrete wrapped endpoint whose handler raises a non-`APIException`
defect, used by the C2 witness. -/
def c2Endpoint : Endpoint := .func "crasher" true (fun _ _ => .error (.other "boom"))

/-- Witness for C2: a handler raising a plain exception behind one
identity middleware yields the logged, post-hook-free `500` trace. -/
theorem c2_unhandled_handler_defect_frames_500_witness :
    ((fun (p : Bytes) => (some c2Endpoint, p)) "/a".toList = (some c2Endpoint, "/a".toList)) ∧
    runBefores ([⟨fun r => .ok r, fun r => .ok r⟩] : List Middleware).enum ⟨"/a".toList⟩
      = ([Ev.beforeHook 0], .ok ⟨"/a".toList⟩) ∧
    callEndpoint c2Endpoint ⟨"/a".toList⟩
        (collect_path_variables "/a".toList "/a".toList) =
      ([Ev.handlerCall], .result (.error (.other "boom"))) ∧
    handle_http (fun p => (some c2Endpoint, p))
        [⟨fun r => .ok r, fun r => .ok r⟩] ⟨"/a".toList⟩ =
      ([Ev.monBefore, Ev.bodyRead] ++ [Ev.beforeHook 0] ++
        [Ev.handlerCall, Ev.logCritical (clean_traceback_message (.other "boom")),
         Ev.monAfter 500, Ev.frameStart 500 jsonContentTypeHeaders,
         Ev.frameBody (some (jsonDict [("detail", status_text 500)]))], .ok ()) :=
  ⟨rfl, rfl, rfl,
   (c2_unhandled_handler_defect_frames_500 (fun p => (some c2Endpoint, p))
      [⟨fun r => .ok r, fun r => .ok r⟩] ⟨"/a".toList⟩ "/a".toList c2Endpoint
      [Ev.beforeHook 0] ⟨"/a".toList⟩ "boom" rfl rfl rfl).1⟩

/-- Concrete well-formed endpoint returning a `200` response, used for the
C3 and C4 refutations. -/
def okEndpoint : Endpoint :=
  .func "index" true
    (fun _ _ => .ok ⟨200, [("x-h".toList, "v".toList)], some "payload".toList⟩)

/-- Counterexample to claim C3: a middleware whose post-hook raises a
non-`APIException` exception.  The post-hook loop of `handle_http`
(`main.py`, lines 244-248) catches only `APIException`, so the exception
escapes `handle_http` to the caller and no `500` response is framed: no
frame event of any kind is in the trace. -/
theorem c3_after_hook_defect_escapes_counterexample :
    handle_http (fun p => (some okEndpoint, p))
        [⟨fun r => .ok r, fun _ => .error (.other "boom")⟩] ⟨"/".toList⟩ =
      ([Ev.monBefore, Ev.bodyRead, Ev.beforeHook 0, Ev.handlerCall, Ev.afterHook 0],
       .error (.other "boom")) ∧
    ∀ st hs, Ev.frameStart st hs
      ∉ [Ev.monBefore, Ev.bodyRead, Ev.beforeHook 0, Ev.handlerCall, Ev.afterHook 0] :=
  ⟨rfl, by intro st hs; simp⟩

/-- Claim C3 as amended: a non-`APIException` exception raised during the
pre-hook chain or during the handler invocation is recovered by the
dispatcher — `handle_http` returns normally and a `500` start frame is
pushed — but an exception raised in a post-hook (or by the final framing
call) escapes `handle_http` unrecovered. -/
theorem c3_defects_before_after_chain_recovered
    (find : Bytes → Option Endpoint × Bytes) (mws : List Middleware)
    (req : Request) (fp : Bytes) (ep : Endpoint)
    (hf : find req.path = (some ep, fp))
    (h : (∃ t1 msg, runBefores mws.enum req = (t1, .error (.other msg))) ∨
         (∃ t1 req' msg, runBefores mws.enum req = (t1, .ok req') ∧
           callEndpoint ep req' (collect_path_variables req.path fp) =
             ([Ev.handlerCall], .result (.error (.other msg))))) :
    (handle_http find mws req).2 = .ok () ∧
    Ev.frameStart 500 jsonContentTypeHeaders ∈ (handle_http find mws req).1 := by
  rcases h with ⟨t1, msg, hb⟩ | ⟨t1, req', msg, hb, hc⟩
  · have heq : handle_http find mws req =
        ([Ev.monBefore, Ev.bodyRead] ++ t1 ++
          [Ev.logCritical (clean_traceback_message (.other msg)),
           Ev.monAfter 500, Ev.frameStart 500 jsonContentTypeHeaders,
           Ev.frameBody (some (jsonDict [("detail", status_text 500)]))], .ok ()) := by
      simp [handle_http, hf, hb, http_response_trace]
    rw [heq]
    simp
  · have heq : handle_http find mws req =
        ([Ev.monBefore, Ev.bodyRead] ++ t1 ++
          [Ev.handlerCall, Ev.logCritical (clean_traceback_message (.other msg)),
           Ev.monAfter 500, Ev.frameStart 500 jsonContentTypeHeaders,
           Ev.frameBody (some (jsonDict [("detail", status_text 500)]))], .ok ()) := by
      simp [handle_http, hf, hb, hc, http_response_trace]
    rw [heq]
    simp

/-- Witness for the amended C3: a handler defect is recovered and `500`
framed. -/
theorem c3_defects_before_after_chain_recovered_witness :
    ((fun (p : Bytes) => (some c2Endpoint, p)) "/a".toList = (some c2Endpoint, "/a".toList)) ∧
    runBefores ([] : List Middleware).enum ⟨"/a".toList⟩ = ([], .ok ⟨"/a".toList⟩) ∧
    callEndpoint c2Endpoint ⟨"/a".toList⟩
        (collect_path_variables "/a".toList "/a".toList) =
      ([Ev.handlerCall], .result (.error (.other "boom"))) ∧
    (handle_http (fun p => (some c2Endpoint, p)) [] ⟨"/a".toList⟩).2 = .ok () ∧
    Ev.frameStart 500 jsonContentTypeHeaders
      ∈ (handle_http (fun p => (some c2Endpoint, p)) [] ⟨"/a".toList⟩).1 :=
  ⟨rfl, rfl, rfl,
   c3_defects_before_after_chain_recovered (fun p => (some c2Endpoint, p)) []
     ⟨"/a".toList⟩ "/a".toList c2Endpoint rfl
     (Or.inr ⟨[], ⟨"/a".toList⟩, "boom", rfl, rfl⟩)⟩

/-- Claim C4, evaluated at a failing input: a dispatch whose handler
returns a `Response` and whose (empty) post-hook chain completes does not
push one start frame and one body frame; the final framing call of
`handle_http` (`main.py`, lines 250-256) passes the keyword argument
`headers`, which `_utils.http_response` (lines 38-46) does not accept, so
the call raises `TypeError` and no frame at all reaches the host —
moreover `_utils._http_response_start` hardcodes the header list rather
than taking the response's headers. -/
theorem c4_final_framing_type_error :
    handle_http (fun p => (some okEndpoint, p)) [] ⟨"/".toList⟩ =
      ([Ev.monBefore, Ev.bodyRead, Ev.handlerCall], .error framingTypeError) ∧
    (∀ st hs, Ev.frameStart st hs ∉ [Ev.monBefore, Ev.bodyRead, Ev.handlerCall]) ∧
    (∀ b, Ev.frameBody b ∉ [Ev.monBefore, Ev.bodyRead, Ev.handlerCall]) :=
  ⟨rfl, by intro st hs; simp, by intro b; simp⟩

/-- Claim C1: with a chain of five middlewares whose third pre-hook raises
`APIException` (and whose post-hooks return normally), exactly three
pre-hooks run, the handler never runs, all five post-hooks run in exactly
reverse order of the pre-hook chain, and the response fed into the
post-hook chain is the `handle_exceptions` mapping of the raised
`APIException`. -/
theorem c1_api_error_in_third_before_hook
    (find : Bytes → Option Endpoint × Bytes) (req : Request) (fp : Bytes)
    (ep : Endpoint) (m1 m2 m3 m4 m5 : Middleware) (r1 r2 : Request)
    (st : Nat) (d : PyDetail)
    (hf : find req.path = (some ep, fp))
    (h1 : m1.before req = .ok r1)
    (h2 : m2.before r1 = .ok r2)
    (h3 : m3.before r2 = .error (.apiExn st d))
    (ha : ∀ m ∈ [m1, m2, m3, m4, m5], ∀ resp, ∃ resp', m.after resp = .ok resp') :
    (handle_http find [m1, m2, m3, m4, m5] req).1 =
      [Ev.monBefore, Ev.bodyRead, Ev.beforeHook 0, Ev.beforeHook 1, Ev.beforeHook 2] ++
        (runAfters ([m1, m2, m3, m4, m5] : List Middleware).enum.reverse
          (Panther.handle_exceptions st d)).1 ∧
    (handle_http find [m1, m2, m3, m4, m5] req).1 =
      [Ev.monBefore, Ev.bodyRead, Ev.beforeHook 0, Ev.beforeHook 1, Ev.beforeHook 2,
       Ev.afterHook 4, Ev.afterHook 3, Ev.afterHook 2, Ev.afterHook 1, Ev.afterHook 0] ∧
    Ev.handlerCall ∉ (handle_http find [m1, m2, m3, m4, m5] req).1 := by
  have henum : ([m1, m2, m3, m4, m5] : List Middleware).enum =
      [(0, m1), (1, m2), (2, m3), (3, m4), (4, m5)] := rfl
  have hbe : runBefores [(0, m1), (1, m2), (2, m3), (3, m4), (4, m5)] req =
      ([Ev.beforeHook 0, Ev.beforeHook 1, Ev.beforeHook 2], .error (.apiExn st d)) := by
    simp [runBefores, h1, h2, h3]
  obtain ⟨x5, e5⟩ := ha m5 (by simp) (Panther.handle_exceptions st d)
  obtain ⟨x4, e4⟩ := ha m4 (by simp) x5
  obtain ⟨x3, e3⟩ := ha m3 (by simp) x4
  obtain ⟨x2, e2⟩ := ha m2 (by simp) x3
  obtain ⟨x1, e1⟩ := ha m1 (by simp) x2
  have haf : runAfters [(4, m5), (3, m4), (2, m3), (1, m2), (0, m1)]
      (Panther.handle_exceptions st d) =
      ([Ev.afterHook 4, Ev.afterHook 3, Ev.afterHook 2, Ev.afterHook 1, Ev.afterHook 0],
       .ok x1) := by
    simp [runAfters, e5, e4, e3, e2, e1]
  have heq : handle_http find [m1, m2, m3, m4, m5] req =
      ([Ev.monBefore, Ev.bodyRead, Ev.beforeHook 0, Ev.beforeHook 1, Ev.beforeHook 2,
        Ev.afterHook 4, Ev.afterHook 3, Ev.afterHook 2, Ev.afterHook 1, Ev.afterHook 0],
       .error framingTypeError) := by
    simp [handle_http, hf, henum, hbe, afterPhase, haf]
  refine ⟨?_, ?_, ?_⟩
  · rw [heq, henum]
    simp [haf]
  · rw [heq]
  · rw [heq]
    simp

/-- Concrete five-middleware chain for the C1 witness: identity hooks
except the third pre-hook, which raises `APIException 403`. -/
def c1mw (_ : Nat) : Middleware := ⟨fun r => .ok r, fun r => .ok r⟩

/-- The failing third middleware of the C1 witness. -/
def c1mw3 : Middleware :=
  ⟨fun _ => .error (.apiExn 403 (.lit "denied")), fun r => .ok r⟩

/-- Witness for C1 with a concrete five-middleware chain. -/
theorem c1_api_error_in_third_before_hook_witness :
    ((fun (p : Bytes) => (some okEndpoint, p)) "/a".toList = (some okEndpoint, "/a".toList)) ∧
    (c1mw 1).before ⟨"/a".toList⟩ = .ok ⟨"/a".toList⟩ ∧
    (c1mw 2).before ⟨"/a".toList⟩ = .ok ⟨"/a".toList⟩ ∧
    c1mw3.before ⟨"/a".toList⟩ = .error (.apiExn 403 (.lit "denied")) ∧
    (handle_http (fun p => (some okEndpoint, p))
        [c1mw 1, c1mw 2, c1mw3, c1mw 4, c1mw 5] ⟨"/a".toList⟩).1 =
      [Ev.monBefore, Ev.bodyRead, Ev.beforeHook 0, Ev.beforeHook 1, Ev.beforeHook 2,
       Ev.afterHook 4, Ev.afterHook 3, Ev.afterHook 2, Ev.afterHook 1, Ev.afterHook 0] :=
  ⟨rfl, rfl, rfl, rfl,
   (c1_api_error_in_third_before_hook (fun p => (some okEndpoint, p)) ⟨"/a".toList⟩
      "/a".toList okEndpoint (c1mw 1) (c1mw 2) c1mw3 (c1mw 4) (c1mw 5)
      ⟨"/a".toList⟩ ⟨"/a".toList⟩ 403 (.lit "denied") rfl rfl rfl rfl
      (by intro m hm resp
          simp only [List.mem_cons, List.not_mem_nil, or_false] at hm
          rcases hm with h | h | h | h | h <;> subst h <;> exact ⟨resp, rfl⟩)).2.1⟩

/-- Claim C5: a non-exception framing call whose status code is `204`, or
whose body is the explicitly empty payload (the `b'null'` serialization of
an empty `None` payload, which `_utils.http_response` line 49 tests for),
pushes a bodyless body frame, regardless of the body content handed in. -/
theorem c5_bodyless_frame_on_204_or_null
    (status : Nat) (monitoring : Bool) (body : Option Bytes)
    (h : status = 204 ∨ body = some nullBytes) :
    http_response_trace status monitoring body false =
      (if monitoring then [Ev.monAfter status] else []) ++
        [Ev.frameStart status jsonContentTypeHeaders, Ev.frameBody none] := by
  simp only [http_response_trace, if_neg (by simp : ¬False), Bool.false_eq_true,
    if_false]
  rw [if_pos h]

/-- Witness for C5 at status `204` with a non-empty handler body. -/
theorem c5_bodyless_frame_on_204_or_null_witness :
    ((204 : Nat) = 204 ∨ (some "ignored".toList : Option Bytes) = some nullBytes) ∧
    http_response_trace 204 true (some "ignored".toList) false =
      (if true then [Ev.monAfter 204] else []) ++
        [Ev.frameStart 204 jsonContentTypeHeaders, Ev.frameBody none] :=
  ⟨Or.inl rfl,
   c5_bodyless_frame_on_204_or_null 204 true (some "ignored".toList) (Or.inl rfl)⟩

/-! ## Embedding of `Panther.handle_ws` (`main.py`, lines 128-168) -/

/-- Events recorded by one duplex (websocket) dispatch.  `close code`
carries the explicit closure code passed to `connection.close`;
`closeDefault` is the argumentless `connection.close()` call of the
pre-hook exception branch (line 155); `registryInsert` is the
`websocket_connections.new_connection` admission (line 158). -/
inductive WsEv where
  | monBefore
  | monAfterLabel (s : String)
  | close (code : Nat)
  | closeDefault
  | registryInsert
  | listen
  | beforeHook (i : Nat)
  | afterHook (i : Nat)
  | logCritical (msg : String)
deriving DecidableEq, Repr

/-- A websocket-capable endpoint: its registered name and whether it is a
`GenericWebsocket` subclass (the duplex capability check of line 141). -/
structure WsEndpoint where
  name : String
  genericWs : Bool

/-- A middleware as seen by the duplex dispatch: the pre-hook may replace
the connection (modelled by its identifier), the post-hook's return value
is discarded by the source (line 165). -/
structure WsMiddleware where
  before : Nat → Except Exn Nat
  after : Nat → Except Exn Unit

/-- Outcome of the duplex pre-hook loop (`main.py`, lines 151-156):
completion, a `break` on `APIException` (keeping the current connection),
or an uncaught non-`APIException` exception. -/
inductive WsBeforeOut where
  | completed (conn : Nat)
  | broke (conn : Nat)
  | escaped (e : Exn)

/-- The duplex pre-hook loop: `APIException` closes the connection and
breaks; any other exception escapes `handle_ws`. -/
def runWsBefores : List (Nat × WsMiddleware) → Nat → List WsEv × WsBeforeOut
  | [], conn => ([], .completed conn)
  | (i, m) :: rest, conn =>
    match m.before conn with
    | .ok conn' =>
      let r := runWsBefores rest conn'
      (WsEv.beforeHook i :: r.1, r.2)
    | .error (.apiExn _ _) => ([WsEv.beforeHook i], .broke conn)
    | .error (.other msg) => ([WsEv.beforeHook i], .escaped (.other msg))

/-- The duplex post-hook loop (`main.py`, lines 163-165):
`contextlib.suppress(APIException)` keeps the loop going past application
errors, while any other exception escapes. -/
def runWsAfters : List (Nat × WsMiddleware) → Nat → List WsEv × Option Exn
  | [], _ => ([], none)
  | (i, m) :: rest, conn =>
    match m.after conn with
    | .ok _ =>
      let r := runWsAfters rest conn
      (WsEv.afterHook i :: r.1, r.2)
    | .error (.apiExn _ _) =>
      let r := runWsAfters rest conn
      (WsEv.afterHook i :: r.1, r.2)
    | .error (.other msg) => ([WsEv.afterHook i], some (.other msg))

/-- Embedding of `Panther.handle_ws` (`main.py`, lines 128-168).  The
routing function `findWs` stands for `panther.routings.find_endpoint`
(absent from `src/`); the registry is modelled by its size, incremented by
the `new_connection` admission (the matching removal lives in the
`WebsocketConnections` listener code, also absent from `src/`).  A path
with no route, or a route that is not a `GenericWebsocket` subclass, is
rejected with closure codes `1000` (`WS_1000_NORMAL_CLOSURE`) resp. `1014`
(`WS_1014_BAD_GATEWAY`) without touching the registry. -/
def handle_ws (findWs : Bytes → Option WsEndpoint × Bytes) (mws : List WsMiddleware)
    (path : Bytes) (registry : Nat) : List WsEv × Except Exn Nat :=
  let pre := [WsEv.monBefore]
  let fr := findWs path
  match fr.1 with
  | none => (pre ++ [WsEv.monAfterLabel "Rejected", WsEv.close 1000], .ok registry)
  | some ep =>
    let _pv := collect_path_variables path fr.2
    if ep.genericWs then
      let b := runWsBefores mws.enum 0
      match b.2 with
      | .completed conn =>
        let t2 := [WsEv.registryInsert, WsEv.monAfterLabel "Accepted", WsEv.listen]
        let a := runWsAfters mws.enum.reverse conn
        match a.2 with
        | none =>
          (pre ++ b.1 ++ t2 ++ a.1 ++ [WsEv.monAfterLabel "Closed"], .ok (registry + 1))
        | some e => (pre ++ b.1 ++ t2 ++ a.1, .error e)
      | .broke conn =>
        let a := runWsAfters mws.enum.reverse conn
        match a.2 with
        | none =>
          (pre ++ b.1 ++ [WsEv.closeDefault] ++ a.1 ++ [WsEv.monAfterLabel "Closed"],
           .ok registry)
        | some e => (pre ++ b.1 ++ [WsEv.closeDefault] ++ a.1, .error e)
      | .escaped e => (pre ++ b.1, .error e)
    else
      (pre ++
        [WsEv.logCritical
          ("You may have forgotten to inherit from GenericWebsocket on the "
            ++ ep.name ++ "()"),
         WsEv.monAfterLabel "Rejected", WsEv.close 1014], .ok registry)

/-- Claim C8: a duplex dispatch whose path has no matching route is closed
with the normal-closure code `1000` and never inserted into the registry;
a matching route whose handler is not a `GenericWebsocket` subclass is
closed with the distinct bad-gateway code `1014` and likewise never
inserted — in both cases the registry size is returned unchanged and no
admission event is in the trace. -/
theorem c8_ws_rejections_never_touch_registry
    (findWs : Bytes → Option WsEndpoint × Bytes) (mws : List WsMiddleware)
    (path : Bytes) (reg : Nat) :
    (∀ fp, findWs path = (none, fp) →
      handle_ws findWs mws path reg =
        ([WsEv.monBefore, WsEv.monAfterLabel "Rejected", WsEv.close 1000], .ok reg) ∧
      WsEv.registryInsert ∉ (handle_ws findWs mws path reg).1) ∧
    (∀ ep fp, findWs path = (some ep, fp) → ep.genericWs = false →
      handle_ws findWs mws path reg =
        ([WsEv.monBefore,
          WsEv.logCritical
            ("You may have forgotten to inherit from GenericWebsocket on the "
              ++ ep.name ++ "()"),
          WsEv.monAfterLabel "Rejected", WsEv.close 1014], .ok reg) ∧
      WsEv.registryInsert ∉ (handle_ws findWs mws path reg).1) := by
  constructor
  · intro fp h
    have heq : handle_ws findWs mws path reg =
        ([WsEv.monBefore, WsEv.monAfterLabel "Rejected", WsEv.close 1000], .ok reg) := by
      simp [handle_ws, h]
    exact ⟨heq, by rw [heq]; simp⟩
  · intro ep fp h hg
    have heq : handle_ws findWs mws path reg =
        ([WsEv.monBefore,
          WsEv.logCritical
            ("You may have forgotten to inherit from GenericWebsocket on the "
              ++ ep.name ++ "()"),
          WsEv.monAfterLabel "Rejected", WsEv.close 1014], .ok reg) := by
      simp [handle_ws, h, hg]
    exact ⟨heq, by rw [heq]; simp⟩

/-- Witness for C8: both rejection paths at concrete routing tables, with
one middleware present and a registry of size 7. -/
theorem c8_ws_rejections_never_touch_registry_witness :
    ((fun (_ : Bytes) => ((none : Option WsEndpoint), "".toList)) "/chat".toList
        = (none, "".toList)) ∧
    handle_ws (fun _ => (none, "".toList)) [⟨fun c => .ok c, fun _ => .ok ()⟩]
        "/chat".toList 7 =
      ([WsEv.monBefore, WsEv.monAfterLabel "Rejected", WsEv.close 1000], .ok 7) ∧
    ((fun (p : Bytes) => (some (⟨"ChatHandler", false⟩ : WsEndpoint), p)) "/chat".toList
        = (some ⟨"ChatHandler", false⟩, "/chat".toList)) ∧
    (⟨"ChatHandler", false⟩ : WsEndpoint).genericWs = false ∧
    handle_ws (fun p => (some ⟨"ChatHandler", false⟩, p))
        [⟨fun c => .ok c, fun _ => .ok ()⟩] "/chat".toList 7 =
      ([WsEv.monBefore,
        WsEv.logCritical
          ("You may have forgotten to inherit from GenericWebsocket on the "
            ++ "ChatHandler" ++ "()"),
        WsEv.monAfterLabel "Rejected", WsEv.close 1014], .ok 7) :=
  ⟨rfl,
   ((c8_ws_rejections_never_touch_registry (fun _ => (none, "".toList))
      [⟨fun c => .ok c, fun _ => .ok ()⟩] "/chat".toList 7).1 "".toList rfl).1,
   rfl, rfl,
   ((c8_ws_rejections_never_touch_registry (fun p => (some ⟨"ChatHandler", false⟩, p))
      [⟨fun c => .ok c, fun _ => .ok ()⟩] "/chat".toList 7).2 ⟨"ChatHandler", false⟩
      "/chat".toList rfl rfl).1⟩

/-! ## Separator handling of `collect_path_variables` (claim C9) -/

/-- Counterexample to claim C9: the stated example holds, but adding one
more leading separator to a request path that already has one changes the
returned mapping, because `collect_path_variables` strips exactly one
leading and one trailing separator (`str.removesuffix` / `str.removeprefix`
remove a single occurrence). -/
theorem c9_second_separator_changes_mapping_counterexample :
    collect_path_variables "/users/42/".toList "/users/<id>/".toList
      = [("id".toList, "42".toList)] ∧
    collect_path_variables "//users/42/".toList "/users/<id>/".toList
      = [("id".toList, "users".toList)] ∧
    collect_path_variables "//users/42/".toList "/users/<id>/".toList
      ≠ collect_path_variables "/users/42/".toList "/users/<id>/".toList := by
  refine ⟨by decide, by decide, by decide⟩

/-- Attach an optional single leading and trailing separator to a path. -/
def addSep (lead trail : Bool) (s : Bytes) : Bytes :=
  (if lead then ['/'] else []) ++ s ++ (if trail then ['/'] else [])

/-- Helper: `removesuffix('/')` is the identity on a string not ending in
the separator. -/
theorem removeSuffixSlash_eq_self (s : Bytes) (h : s.getLast? ≠ some '/') :
    removeSuffixSlash s = s := by
  simp [removeSuffixSlash, h]

/-- Helper: `removeprefix('/')` is the identity on a string not starting
with the separator. -/
theorem removePrefixSlash_eq_self (s : Bytes) (h : s.head? ≠ some '/') :
    removePrefixSlash s = s := by
  cases s with
  | nil => rfl
  | cons c t =>
    simp only [List.head?_cons, ne_eq, Option.some.injEq] at h
    simp [removePrefixSlash, h]

/-- Helper: stripping one trailing then one leading separator recovers the
separator-free core from any of its four single-separator decorations. -/
theorem strip_addSep (s : Bytes) (h1 : s.head? ≠ some '/') (h2 : s.getLast? ≠ some '/')
    (a b : Bool) :
    removePrefixSlash (removeSuffixSlash (addSep a b s)) = s := by
  cases b with
  | true =>
    have hpre : addSep a true s = ((if a then ['/'] else []) ++ s) ++ ['/'] := by
      simp [addSep]
    rw [hpre]
    rw [show removeSuffixSlash (((if a then ['/'] else []) ++ s) ++ ['/'])
        = (if a then ['/'] else []) ++ s by
      simp [removeSuffixSlash, List.getLast?_concat, List.dropLast_concat]]
    cases a with
    | true => simp [removePrefixSlash]
    | false => simpa using removePrefixSlash_eq_self s h1
  | false =>
    cases a with
    | true =>
      have hpre : addSep true false s = '/' :: s := by simp [addSep]
      rw [hpre]
      cases s with
      | nil => rfl
      | cons x xs =>
        have hlast : ('/' :: x :: xs).getLast? = (x :: xs).getLast? :=
          List.getLast?_cons_cons
        rw [show removeSuffixSlash ('/' :: x :: xs) = '/' :: x :: xs by
          simp [removeSuffixSlash, hlast, h2]]
        simp [removePrefixSlash]
    | false =>
      have hpre : addSep false false s = s := by simp [addSep]
      rw [hpre, removeSuffixSlash_eq_self s h2, removePrefixSlash_eq_self s h1]

/-- Claim C9 as amended: the stated example holds, and the returned mapping
is invariant under the presence or absence of a single leading and a
single trailing separator on either argument (relative to the
separator-free core of each path); adding a separator beyond that single
one can change the mapping, as the counterexample shows. -/
theorem c9_single_separator_invariance :
    collect_path_variables "/users/42/".toList "/users/<id>/".toList
      = [("id".toList, "42".toList)] ∧
    ∀ (r p : Bytes) (a b c d : Bool), r.head? ≠ some '/' → r.getLast? ≠ some '/' →
      p.head? ≠ some '/' → p.getLast? ≠ some '/' →
      collect_path_variables (addSep a b r) (addSep c d p) =
        collect_path_variables r p := by
  refine ⟨by decide, ?_⟩
  intro r p a b c d hr1 hr2 hp1 hp2
  simp only [collect_path_variables]
  rw [strip_addSep r hr1 hr2 a b, strip_addSep p hp1 hp2 c d,
    removeSuffixSlash_eq_self r hr2, removePrefixSlash_eq_self r hr1,
    removeSuffixSlash_eq_self p hp2, removePrefixSlash_eq_self p hp1]

/-- Witness for the amended C9 at the spec's own example core. -/
theorem c9_single_separator_invariance_witness :
    (("users/42".toList : Bytes).head? ≠ some '/' ∧
     ("users/42".toList : Bytes).getLast? ≠ some '/' ∧
     ("users/<id>".toList : Bytes).head? ≠ some '/' ∧
     ("users/<id>".toList : Bytes).getLast? ≠ some '/') ∧
    collect_path_variables (addSep true true "users/42".toList)
        (addSep true false "users/<id>".toList) =
      collect_path_variables "users/42".toList "users/<id>".toList :=
  ⟨⟨by decide, by decide, by decide, by decide⟩,
   c9_single_separator_invariance.2 "users/42".toList "users/<id>".toList
     true true true false (by decide) (by decide) (by decide) (by decide)⟩

/-! ## Embedding of `_utils.read_multipart_form_data` (lines 70-104)

The two regular expressions of the source use only literal characters and
greedy `(.*)` groups (with `.` matching any character except a newline),
and are applied with `re.match`, i.e. anchored at the start of the part
and allowed to stop before its end.  The patterns are embedded as token
lists and matched by a backtracking matcher with Python's greedy
semantics; the matcher returns the list of `(.*)` captures in order. -/

/-- One token of the embedded patterns: a literal character or a greedy
`(.*)` group. -/
inductive Tok where
  | lit (c : Char)
  | dotStar
deriving DecidableEq, Repr

/-- A run of literal tokens. -/
def litToks (l : List Char) : List Tok := l.map Tok.lit

/-- Greedy matching of one `(.*)` group: consume the longest newline-free
prefix for which the continuation `next` (the rest of the pattern)
succeeds, backtracking one character at a time; the group's capture is
prepended to the continuation's captures. -/
def starRun (next : List Char → Option (List (List Char))) :
    List Char → Option (List (List Char))
  | [] => (next []).map (fun caps => [] :: caps)
  | c :: rest =>
    if c = '\n' then (next (c :: rest)).map (fun caps => [] :: caps)
    else
      match starRun next rest with
      | some (p :: caps) => some ((c :: p) :: caps)
      | some [] => none
      | none => (next (c :: rest)).map (fun caps => [] :: caps)

/-- Anchored pattern matching in the style of Python's `re.match`: the
pattern must match a prefix of the string; the returned list holds the
captures of the `(.*)` groups in order. -/
def matchToks : List Tok → List Char → Option (List (List Char))
  | [], _ => some []
  | .lit _ :: _, [] => none
  | .lit c :: ts, x :: xs => if x = c then matchToks ts xs else none
  | .dotStar :: ts, s => starRun (matchToks ts) s

/-- The literal run shared by both patterns (`per_pattern`, line 77):
`\r\nContent-Disposition: form-data; name="`. -/
def cdLit : List Char := "\r\nContent-Disposition: form-data; name=\"".toList

/-- The tail of `cdLit` after its leading `\r\n`. -/
def cdTail : List Char := "Content-Disposition: form-data; name=\"".toList

/-- The literal run `"; filename="` of `file_pattern` (line 84). -/
def fnLit : List Char := "\"; filename=\"".toList

/-- The literal run `"\r\nContent-Type: ` of `file_pattern` (line 84). -/
def ctLit : List Char := "\"\r\nContent-Type: ".toList

/-- The tail of `ctLit` after `"\r\n`. -/
def ctTail : List Char := "Content-Type: ".toList

/-- The literal run `\r\n\r\n` of `value_pattern` (line 78). -/
def crlf2 : List Char := "\r\n\r\n".toList

/-- The literal run `\r\n` opening the last group of `field_pattern`
(line 81). -/
def crlf : List Char := "\r\n".toList

/-- Embedding of `field_pattern` (line 81):
`(.*\r\nContent-Disposition: form-data; name=")(.*)(\r\n\r\n)(.*)(\r\n.*)`. -/
def field_pattern_toks : List Tok :=
  Tok.dotStar :: (litToks cdLit ++
    (Tok.dotStar :: (litToks crlf2 ++
      (Tok.dotStar :: (litToks crlf ++ [Tok.dotStar])))))

/-- Embedding of `file_pattern` (line 84):
`(.*\r\nContent-Disposition: form-data; name=")(.*)("; filename=")(.*)("\r\nContent-Type: )(.*)(\r\n\r\n)(.*)`. -/
def file_pattern_toks : List Tok :=
  Tok.dotStar :: (litToks cdLit ++
    (Tok.dotStar :: (litToks fnLit ++
      (Tok.dotStar :: (litToks ctLit ++
        (Tok.dotStar :: (litToks crlf2 ++ [Tok.dotStar])))))))

/-- Declarative matching relation for the embedded patterns: a literal
consumes its character; a `(.*)` group consumes any newline-free prefix;
an exhausted pattern accepts (prefix semantics of `re.match`). -/
def Matches : List Tok → List Char → Prop
  | [], _ => True
  | .lit c :: ts, s => ∃ s2, s = c :: s2 ∧ Matches ts s2
  | .dotStar :: ts, s => ∃ p s2, s = p ++ s2 ∧ (∀ a ∈ p, a ≠ '\n') ∧ Matches ts s2

/-- Sanity check: `field_pattern` on a simple field part, with the greedy
name group capturing up to the end of the header line (including the
closing quote, as the source regex does). -/
theorem field_pattern_simple_part_captures :
    matchToks field_pattern_toks
      "\r\nContent-Disposition: form-data; name=\"f1\"\r\n\r\nv1\r\n--".toList =
    some [[], "f1\"".toList, "v1".toList, "--".toList] := rfl

/-- Sanity check: `file_pattern` on a file-bearing part. -/
theorem file_pattern_file_part_captures :
    matchToks file_pattern_toks
      ("\r\nContent-Disposition: form-data; name=\"f1\"; filename=\"a.txt\""
        ++ "\r\nContent-Type: text/plain\r\n\r\nhello\r\n--").toList =
    some [[], "f1".toList, "a.txt".toList, "text/plain".toList, "hello\r".toList] := rfl

/-- Sanity check: the same file-bearing part does not match
`field_pattern`. -/
theorem field_pattern_rejects_file_part :
    matchToks field_pattern_toks
      ("\r\nContent-Disposition: form-data; name=\"f1\"; filename=\"a.txt\""
        ++ "\r\nContent-Type: text/plain\r\n\r\nhello\r\n--").toList = none := rfl

/-- Helper: a successful `starRun` exhibits a newline-free consumed prefix
and a suffix accepted by the continuation. -/
theorem starRun_sound (next : List Char → Option (List (List Char)))
    (P : List Char → Prop) (hnext : ∀ s caps, next s = some caps → P s) :
    ∀ s caps, starRun next s = some caps →
      ∃ p s2, s = p ++ s2 ∧ (∀ a ∈ p, a ≠ '\n') ∧ P s2 := by
  intro s
  induction s with
  | nil =>
    intro caps h
    simp only [starRun] at h
    obtain ⟨caps0, hn, -⟩ := Option.map_eq_some'.mp h
    exact ⟨[], [], rfl, by simp, hnext [] caps0 hn⟩
  | cons c rest ih =>
    intro caps h
    simp only [starRun] at h
    by_cases hc : c = '\n'
    · rw [if_pos hc] at h
      obtain ⟨caps0, hn, -⟩ := Option.map_eq_some'.mp h
      exact ⟨[], c :: rest, rfl, by simp, hnext _ caps0 hn⟩
    · rw [if_neg hc] at h
      cases hs : starRun next rest with
      | some l =>
        obtain ⟨p2, s2, hsplit, hnl, hP⟩ := ih l hs
        refine ⟨c :: p2, s2, by rw [hsplit, List.cons_append], ?_, hP⟩
        intro a ha
        rcases List.mem_cons.mp ha with rfl | ha
        · exact hc
        · exact hnl a ha
      | none =>
        rw [hs] at h
        obtain ⟨caps0, hn, -⟩ := Option.map_eq_some'.mp h
        exact ⟨[], c :: rest, rfl, by simp, hnext _ caps0 hn⟩

/-- Soundness of the matcher against the declarative relation. -/
theorem matchToks_sound :
    ∀ toks s caps, matchToks toks s = some caps → Matches toks s := by
  intro toks
  induction toks with
  | nil => intro s caps _; trivial
  | cons t ts ih =>
    cases t with
    | lit c =>
      intro s caps h
      cases s with
      | nil => simp [matchToks] at h
      | cons x xs =>
        simp only [matchToks] at h
        by_cases hx : x = c
        · rw [if_pos hx] at h
          exact ⟨xs, by rw [hx], ih xs caps h⟩
        · rw [if_neg hx] at h
          cases h
    | dotStar =>
      intro s caps h
      simp only [matchToks] at h
      exact starRun_sound (matchToks ts) (Matches ts)
        (fun s2 caps2 h2 => ih s2 caps2 h2) s caps h

/-- Helper: matching a literal run followed by a pattern splits the string
after the literal run. -/
theorem Matches_litToks (l : List Char) (ts : List Tok) :
    ∀ s, Matches (litToks l ++ ts) s ↔ ∃ s2, s = l ++ s2 ∧ Matches ts s2 := by
  induction l with
  | nil =>
    intro s
    constructor
    · intro h; exact ⟨s, rfl, h⟩
    · rintro ⟨s2, rfl, hm⟩; exact hm
  | cons c l ih =>
    intro s
    constructor
    · intro h
      obtain ⟨s2, rfl, hm⟩ := h
      obtain ⟨s3, rfl, hm3⟩ := (ih s2).mp hm
      exact ⟨s3, rfl, hm3⟩
    · rintro ⟨s2, rfl, hm⟩
      exact ⟨l ++ s2, rfl, (ih (l ++ s2)).mpr ⟨s2, rfl, hm⟩⟩

/-- Helper: the position of the first newline in a string is unique —
two decompositions around a newline with newline-free prefixes coincide. -/
theorem firstNl_unique :
    ∀ (x u y v : List Char), x ++ '\n' :: u = y ++ '\n' :: v →
      (∀ a ∈ x, a ≠ '\n') → (∀ a ∈ y, a ≠ '\n') → x = y ∧ u = v := by
  intro x
  induction x with
  | nil =>
    intro u y v h hx hy
    cases y with
    | nil =>
      simp only [List.nil_append, List.cons.injEq] at h
      exact ⟨rfl, h.2⟩
    | cons b y' =>
      simp only [List.nil_append, List.cons_append, List.cons.injEq] at h
      exact absurd h.1.symm (hy b (by simp))
  | cons a x' ih =>
    intro u y v h hx hy
    cases y with
    | nil =>
      simp only [List.cons_append, List.nil_append, List.cons.injEq] at h
      exact absurd h.1 (hx a (by simp))
    | cons b y' =>
      simp only [List.cons_append, List.cons.injEq] at h
      obtain ⟨hab, hrest⟩ := h
      obtain ⟨hxy, huv⟩ := ih u y' v hrest
        (fun e he => hx e (by simp [he]))
        (fun e he => hy e (by simp [he]))
      exact ⟨by rw [hab, hxy], huv⟩

/-- Helper: two decompositions around a `\r\n` pair with newline-free
prefixes coincide. -/
theorem first_crlf_unique (A rest A' rest' : List Char)
    (h : A ++ ('\r' :: '\n' :: rest) = A' ++ ('\r' :: '\n' :: rest'))
    (hA : ∀ a ∈ A, a ≠ '\n') (hA' : ∀ a ∈ A', a ≠ '\n') :
    A = A' ∧ rest = rest' := by
  have h2 : (A ++ ['\r']) ++ '\n' :: rest = (A' ++ ['\r']) ++ '\n' :: rest' := by
    simpa [List.append_assoc] using h
  have h3 := firstNl_unique (A ++ ['\r']) rest (A' ++ ['\r']) rest' h2
    (by intro a ha
        rcases List.mem_append.mp ha with ha | ha
        · exact hA a ha
        · simp at ha; subst ha; decide)
    (by intro a ha
        rcases List.mem_append.mp ha with ha | ha
        · exact hA' a ha
        · simp at ha; subst ha; decide)
  refine ⟨?_, h3.2⟩
  have := h3.1
  exact List.append_cancel_right this

/-- Helper: definitional unfolding of `Matches` at a `(.*)` token. -/
theorem Matches_dotStar (ts : List Tok) (s : List Char) :
    Matches (Tok.dotStar :: ts) s ↔
      ∃ p s2, s = p ++ s2 ∧ (∀ a ∈ p, a ≠ '\n') ∧ Matches ts s2 :=
  Iff.rfl

/-- Key disjointness property of the two multipart patterns: one part
string can never match both `file_pattern` and `field_pattern` — after the
forced `name="` line, `field_pattern` requires an empty second line while
`file_pattern` forces the second line to start with `Content-Type: `. -/
theorem file_field_disjoint (s : List Char) :
    Matches file_pattern_toks s → Matches field_pattern_toks s → False := by
  intro hfile hfield
  unfold file_pattern_toks at hfile
  unfold field_pattern_toks at hfield
  rw [Matches_dotStar] at hfile
  obtain ⟨A', s1', hs', hA', h1'⟩ := hfile
  rw [Matches_litToks, ] at h1'
  obtain ⟨s2', hs2', h2'⟩ := h1'
  rw [Matches_dotStar] at h2'
  obtain ⟨B', s3', hs3', hB', h3'⟩ := h2'
  rw [Matches_litToks] at h3'
  obtain ⟨s4', hs4', h4'⟩ := h3'
  rw [Matches_dotStar] at h4'
  obtain ⟨D', s5', hs5', hD', h5'⟩ := h4'
  rw [Matches_litToks] at h5'
  obtain ⟨s6', hs6', _⟩ := h5'
  rw [Matches_dotStar] at hfield
  obtain ⟨A, s1, hs, hA, h1⟩ := hfield
  rw [Matches_litToks] at h1
  obtain ⟨s2, hs2, h2⟩ := h1
  rw [Matches_dotStar] at h2
  obtain ⟨B, s3, hs3, hB, h3⟩ := h2
  rw [Matches_litToks] at h3
  obtain ⟨s4, hs4, _⟩ := h3
  -- literal decompositions of the three fixed strings, by computation
  have hcd2 : ∀ x : List Char, cdLit ++ x = '\r' :: '\n' :: (cdTail ++ x) :=
    fun _ => rfl
  have hct2 : ∀ x : List Char, ctLit ++ x = '"' :: '\r' :: '\n' :: (ctTail ++ x) :=
    fun _ => rfl
  have hcrlf22 : ∀ x : List Char, crlf2 ++ x = '\r' :: '\n' :: ('\r' :: '\n' :: x) :=
    fun _ => rfl
  -- both sides present `s` as a newline-free run, then `\r\n`, then the
  -- `Content-Disposition` line
  have hcdsplit : A ++ ('\r' :: '\n' :: (cdTail ++ s2)) =
      A' ++ ('\r' :: '\n' :: (cdTail ++ s2')) := by
    rw [← hcd2 s2, ← hcd2 s2', ← hs2, ← hs2', ← hs, ← hs']
  obtain ⟨-, htail⟩ := first_crlf_unique A (cdTail ++ s2) A' (cdTail ++ s2') hcdsplit hA hA'
  have htail2 : s2 = s2' := List.append_cancel_left htail
  -- expose the first newline after the `name="` literal on both sides:
  -- the field side has `\r\n\r\n` there, the file side reaches its first
  -- newline inside `"\r\nContent-Type: `
  have hleft : s2 = B ++ ('\r' :: '\n' :: ('\r' :: '\n' :: s4)) := by
    rw [hs3, hs4, hcrlf22 s4]
  have hright : s2' = (B' ++ (fnLit ++ (D' ++ ['"']))) ++
      ('\r' :: '\n' :: (ctTail ++ s6')) := by
    rw [hs3', hs4', hs5', hs6', hct2 s6']
    simp only [List.append_assoc, List.singleton_append, List.cons_append,
      List.nil_append]
  have hcomb : B ++ ('\r' :: '\n' :: ('\r' :: '\n' :: s4)) =
      (B' ++ (fnLit ++ (D' ++ ['"']))) ++ ('\r' :: '\n' :: (ctTail ++ s6')) := by
    rw [← hleft, htail2, ← hright]
  obtain ⟨-, hbad⟩ := first_crlf_unique B ('\r' :: '\n' :: s4)
    (B' ++ (fnLit ++ (D' ++ ['"']))) (ctTail ++ s6') hcomb hB
    (by have hfn : ∀ a ∈ fnLit, a ≠ '\n' := by decide
        intro a ha
        rcases List.mem_append.mp ha with ha | ha
        · exact hB' a ha
        rcases List.mem_append.mp ha with ha | ha
        · exact hfn a ha
        rcases List.mem_append.mp ha with ha | ha
        · exact hD' a ha
        · simp at ha; subst ha; decide)
  -- `\r :: ...` cannot equal `Content-Type: ...`, which starts with `C`
  have hceq : '\r' = 'C' := by
    have hctt : ctTail ++ s6' = 'C' :: ("ontent-Type: ".toList ++ s6') := rfl
    rw [hctt] at hbad
    exact ((List.cons.injEq _ _ _ _).mp hbad).1
  exact absurd hceq (by decide)

/-- Helper: a successful `starRun` yields one more capture than the
continuation. -/
theorem starRun_caps_len (next : List Char → Option (List (List Char))) (n : Nat)
    (hnext : ∀ s caps, next s = some caps → caps.length = n) :
    ∀ s caps, starRun next s = some caps → caps.length = n + 1 := by
  intro s
  induction s with
  | nil =>
    intro caps h
    simp only [starRun] at h
    obtain ⟨caps0, hn, hmap⟩ := Option.map_eq_some'.mp h
    rw [← hmap]
    simp [hnext [] caps0 hn]
  | cons c rest ih =>
    intro caps h
    simp only [starRun] at h
    by_cases hc : c = '\n'
    · rw [if_pos hc] at h
      obtain ⟨caps0, hn, hmap⟩ := Option.map_eq_some'.mp h
      rw [← hmap]
      simp [hnext _ caps0 hn]
    · rw [if_neg hc] at h
      cases hs : starRun next rest with
      | some l =>
        rw [hs] at h
        cases l with
        | nil => simp at h
        | cons p caps' =>
          simp only [Option.some.injEq] at h
          rw [← h]
          have := ih (p :: caps') hs
          simpa using this
      | none =>
        rw [hs] at h
        obtain ⟨caps0, hn, hmap⟩ := Option.map_eq_some'.mp h
        rw [← hmap]
        simp [hnext _ caps0 hn]

/-- The number of `(.*)` groups in a pattern. -/
def countStars (toks : List Tok) : Nat :=
  toks.countP (fun t => match t with | Tok.dotStar => true | _ => false)

/-- Helper: a successful match returns one capture per `(.*)` group. -/
theorem matchToks_caps_len :
    ∀ toks s caps, matchToks toks s = some caps → caps.length = countStars toks := by
  intro toks
  induction toks with
  | nil =>
    intro s caps h
    simp only [matchToks, Option.some.injEq] at h
    simp [← h, countStars]
  | cons t ts ih =>
    cases t with
    | lit c =>
      intro s caps h
      cases s with
      | nil => simp [matchToks] at h
      | cons x xs =>
        simp only [matchToks] at h
        by_cases hx : x = c
        · rw [if_pos hx] at h
          rw [ih xs caps h]
          simp [countStars, List.countP_cons]
        · rw [if_neg hx] at h
          cases h
    | dotStar =>
      intro s caps h
      simp only [matchToks] at h
      have := starRun_caps_len (matchToks ts) (countStars ts)
        (fun s2 caps2 h2 => ih s2 caps2 h2) s caps h
      rw [this]
      simp [countStars, List.countP_cons]

/-! ## The boundary split and the decoder itself -/

/-- Python `str.split(sep)` for the nonempty separator `s0 :: stail`
(`body.split(boundary)`, line 87): scan left to right, cutting at each
leftmost non-overlapping occurrence of the separator.  The `skip` counter
consumes the remaining separator characters after a cut. -/
def splitCore (s0 : Char) (stail : List Char) : List Char → Nat → List (List Char)
  | [], _ => [[]]
  | _ :: rest, skip + 1 => splitCore s0 stail rest skip
  | c :: rest, 0 =>
    if (s0 :: stail).isPrefixOf (c :: rest) then
      [] :: splitCore s0 stail rest stail.length
    else
      match splitCore s0 stail rest 0 with
      | [] => [[c]]
      | h :: t => (c :: h) :: t

/-- Sanity check: the split keeps empty segments between adjacent
separators, like Python's `str.split`. -/
theorem splitCore_keeps_empty_segments :
    splitCore 'X' [] "aXbXXc".toList 0 =
      ["a".toList, "b".toList, [], "c".toList] := rfl

/-- Sanity check: the split cuts at leftmost non-overlapping occurrences,
like Python's `str.split`. -/
theorem splitCore_leftmost_nonoverlapping :
    splitCore 'a' ['a'] "aaa".toList 0 = [[], "a".toList] := rfl

/-- The log line emitted for a file-bearing part (`_utils.py`, line 103). -/
def fileLogMsg : String := "We Don't Handle Files In Multipart Request Yet."

/-- Processing of one boundary-delimited part (`_utils.py`, lines 87-103):
a `field_pattern` match stores `groups()[1] -> groups()[3]` into the dict;
a `file_pattern` match emits the unsupported-files log line and stores
nothing (the storing code is commented out in the source). -/
def multipartStep (acc : List (Bytes × Bytes) × List String) (field : List Char) :
    List (Bytes × Bytes) × List String :=
  let fields :=
    match matchToks field_pattern_toks field with
    | some [_, name, value, _] => dictInsert acc.1 name value
    | _ => acc.1
  let logs :=
    match matchToks file_pattern_toks field with
    | some _ => acc.2 ++ [fileLogMsg]
    | none => acc.2
  (fields, logs)

/-- The boundary-delimited parts of a body: the boundary is
`content_type[30:]` (line 75) and the body is split on it (line 87). -/
def multipartParts (content_type body : List Char) : List (List Char) :=
  match content_type.drop 30 with
  | [] => []
  | b0 :: bt => splitCore b0 bt body 0

/-- Embedding of `_utils.read_multipart_form_data` (lines 70-104),
returning the collected fields dict together with the emitted log lines;
an empty boundary (a content type of at most 30 characters) makes Python's
`str.split` raise `ValueError`, embedded as the error case. -/
def read_multipart_form_data (content_type body : List Char) :
    Except String (List (Bytes × Bytes) × List String) :=
  match content_type.drop 30 with
  | [] => .error "empty separator"
  | b0 :: bt => .ok ((splitCore b0 bt body 0).foldl multipartStep ([], []))

/-- Helper: one processing step only ever appends to the log list. -/
theorem multipartStep_logs_extend (acc : List (Bytes × Bytes) × List String)
    (part : List Char) :
    ∃ ext, (multipartStep acc part).2 = acc.2 ++ ext := by
  cases h : matchToks file_pattern_toks part with
  | some caps => exact ⟨[fileLogMsg], by simp [multipartStep, h]⟩
  | none => exact ⟨[], by simp [multipartStep, h]⟩

/-- Helper: the decoder fold only ever appends to the log list. -/
theorem multipart_foldl_logs_extend (parts : List (List Char))
    (acc : List (Bytes × Bytes) × List String) :
    ∃ ext, (parts.foldl multipartStep acc).2 = acc.2 ++ ext := by
  induction parts generalizing acc with
  | nil => exact ⟨[], by simp⟩
  | cons p ps ih =>
    obtain ⟨e1, h1⟩ := multipartStep_logs_extend acc p
    obtain ⟨e2, h2⟩ := ih (multipartStep acc p)
    exact ⟨e1 ++ e2, by
      simp only [List.foldl_cons]
      rw [h2, h1, List.append_assoc]⟩

/-- Helper: a file-bearing part in the fold leaves its log line in the
final log list. -/
theorem multipart_file_part_logged (parts : List (List Char))
    (acc : List (Bytes × Bytes) × List String) (part : List Char)
    (hp : part ∈ parts) (hf : (matchToks file_pattern_toks part).isSome) :
    fileLogMsg ∈ (parts.foldl multipartStep acc).2 := by
  induction parts generalizing acc with
  | nil => cases hp
  | cons p ps ih =>
    rcases List.mem_cons.mp hp with rfl | hmem
    · obtain ⟨caps0, hcaps0⟩ := Option.isSome_iff_exists.mp hf
      have hstep : fileLogMsg ∈ (multipartStep acc part).2 := by
        simp [multipartStep, hcaps0]
      obtain ⟨ext, hext⟩ := multipart_foldl_logs_extend ps (multipartStep acc part)
      simp only [List.foldl_cons]
      rw [hext]
      exact List.mem_append_left ext hstep
    · simp only [List.foldl_cons]
      exact ih (multipartStep acc p) hmem

/-- Claim C10: for every multipart content-type header and raw body text
that the decoder accepts, every file-bearing part (one matching
`file_pattern`, i.e. declaring a filename and a content type) is logged
with the unsupported-files line and contributes no entry to the returned
mapping — its part can never match `field_pattern` — while every simple
field part stores exactly its captured name/value pair. -/
theorem c10_multipart_file_parts_logged_and_dropped
    (ct body : List Char) (fields : List (Bytes × Bytes)) (logs : List String)
    (hok : read_multipart_form_data ct body = .ok (fields, logs)) :
    (∀ part ∈ multipartParts ct body, (matchToks file_pattern_toks part).isSome →
      matchToks field_pattern_toks part = none ∧
      (∀ f l, multipartStep (f, l) part = (f, l ++ [fileLogMsg])) ∧
      fileLogMsg ∈ logs) ∧
    (∀ part f l j1 name value j2,
      matchToks field_pattern_toks part = some [j1, name, value, j2] →
      multipartStep (f, l) part = (dictInsert f name value, l)) := by
  constructor
  · intro part hp hf
    obtain ⟨caps0, hcaps0⟩ := Option.isSome_iff_exists.mp hf
    have hnone : matchToks field_pattern_toks part = none := by
      cases hfd : matchToks field_pattern_toks part with
      | none => rfl
      | some caps =>
        exact absurd (matchToks_sound _ _ _ hfd)
          (file_field_disjoint part (matchToks_sound _ _ _ hcaps0))
    refine ⟨hnone, ?_, ?_⟩
    · intro f l
      simp [multipartStep, hnone, hcaps0]
    · unfold read_multipart_form_data at hok
      unfold multipartParts at hp
      cases hct : ct.drop 30 with
      | nil => rw [hct] at hok; cases hok
      | cons b0 bt =>
        rw [hct] at hok hp
        simp only [Except.ok.injEq] at hok
        have hlogs : logs = ((splitCore b0 bt body 0).foldl multipartStep ([], [])).2 := by
          rw [hok]
        rw [hlogs]
        exact multipart_file_part_logged _ _ _ hp hf
  · intro part f l j1 name value j2 hfd
    have hfile_none : matchToks file_pattern_toks part = none := by
      cases hfl : matchToks file_pattern_toks part with
      | none => rfl
      | some caps =>
        exact absurd (matchToks_sound _ _ _ hfd)
          (file_field_disjoint part (matchToks_sound _ _ _ hfl))
    simp [multipartStep, hfd, hfile_none]

/-- Concrete multipart content-type header for the C10 witness. -/
def c10ct : List Char := "multipart/form-data; boundary=BOUNDARY".toList

/-- Concrete multipart body with a single file-bearing part for the C10
witness. -/
def c10body : List Char :=
  ("--BOUNDARY\r\nContent-Disposition: form-data; name=\"f1\"; filename=\"a.txt\""
    ++ "\r\nContent-Type: text/plain\r\n\r\nhello\r\n--BOUNDARY--\r\n").toList

/-- The boundary-delimited file-bearing part of `c10body`. -/
def c10part : List Char :=
  ("\r\nContent-Disposition: form-data; name=\"f1\"; filename=\"a.txt\""
    ++ "\r\nContent-Type: text/plain\r\n\r\nhello\r\n--").toList

/-- Witness for C10: the concrete file-bearing part is logged and
produces an empty field mapping. -/
theorem c10_multipart_file_parts_logged_and_dropped_witness :
    read_multipart_form_data c10ct c10body = .ok ([], [fileLogMsg]) ∧
    c10part ∈ multipartParts c10ct c10body ∧
    (matchToks file_pattern_toks c10part).isSome = true ∧
    (matchToks field_pattern_toks c10part = none ∧
     (∀ f l, multipartStep (f, l) c10part = (f, l ++ [fileLogMsg])) ∧
     fileLogMsg ∈ [fileLogMsg]) :=
  ⟨rfl, by decide, rfl,
   (c10_multipart_file_parts_logged_and_dropped c10ct c10body [] [fileLogMsg] rfl).1
     c10part (by decide) rfl⟩
